import Mathlib

/-!
Verification of the sheet-music-to-slides pipeline
(`run_gpt4.py`, `run_gpt4_cli.py`, `simple_web.py`, `lambda_handler.py`).

Python strings are modelled as `List Char` (abbreviated `Str`);
`'\n'.join(...)` and `text.split('\n')` become `joinWith` and
`splitOnChar`, `str.strip()` becomes `pyStrip`, `str.replace` becomes
`replaceAll`, `str.upper()` becomes `pyUpper`, `str.endswith` becomes
`List.isSuffixOf`.  The Python dicts carrying lyric data are modelled by
the `Lyric` structure; an `Option` field set to `none` models an absent
key (every reader of these dicts goes through `dict.get` with a default,
modelled by `Option.getD`, or through truthiness, which treats an absent
key's default and `None` alike).  Fallible external calls (the vision /
text capability, deck saving) are modelled as `Except`-valued oracle
parameters, and a Python `try/except` body becomes a `match` on that
`Except` value.
-/

abbrev Str := List Char


/-- Python `c.join(xs)` for a one-character separator `c`. -/
def joinWith (c : Char) : List Str → Str
  | [] => []
  | [x] => x
  | x :: y :: ys => x ++ c :: joinWith c (y :: ys)


/-- Python `s.split(c)` for a one-character separator `c`: split on every
occurrence of `c`, so `n` separators yield `n + 1` (possibly empty) parts.
A non-separator character is prepended to the first part of the split of
the rest (which is always a non-empty list of parts). -/
def splitOnChar (c : Char) : Str → List Str
  | [] => [[]]
  | x :: xs =>
    if x = c then [] :: splitOnChar c xs
    else (x :: (splitOnChar c xs).headI) :: (splitOnChar c xs).tail


/-- One lyric-carrying dict of the pipeline (an extractor fragment, a
combined block, a reformatted block, or a slide-segment entry).  Field
`sect` models the `'section'` key (`section` is a Lean keyword),
`lineNumber` the `'line_number'` key. -/
structure Lyric where
  text : Str := []
  sect : Option Str := none
  lineNumber : Option Nat := none
  page : Option Nat := none
deriving DecidableEq


/-- Loop state of `_combine_pages_lyrics`: `combined`, `current_section`
and `current_text`. -/
structure CombineState where
  combined : List Lyric := []
  currentSection : Option Str := none
  currentText : List Str := []
deriving DecidableEq


/-- Body of the inner loop of `_combine_pages_lyrics` for one fragment:
flush the accumulator as a block when the section changed and the
accumulator is non-empty, then record the fragment's section and append
its text when non-empty. -/
def combineStep (st : CombineState) (lyric : Lyric) : CombineState :=
  let s := lyric.sect.getD []
  let text := lyric.text
  let st :=
    if some s ≠ st.currentSection ∧ st.currentText ≠ [] then
      { st with
        combined := st.combined ++
          [{ text := joinWith '\n' st.currentText
             sect := st.currentSection
             lineNumber := some (st.combined.length + 1) }]
        currentText := [] }
    else st
  { st with
    currentSection := some s
    currentText := if text ≠ [] then st.currentText ++ [text] else st.currentText }


/-- Trailing flush of `_combine_pages_lyrics` after the loops. -/
def combineFinish (st : CombineState) : List Lyric :=
  if st.currentText ≠ [] then
    st.combined ++
      [{ text := joinWith '\n' st.currentText
         sect := st.currentSection
         lineNumber := some (st.combined.length + 1) }]
  else st.combined


/-- Embedding of `_combine_pages_lyrics`: fold the per-page fragment
lists (page order, then in-page order) through `combineStep` and flush
the trailing accumulator.  The constructed blocks carry no `page` key. -/
def combinePagesLyrics (pages : List (List Lyric)) : List Lyric :=
  combineFinish (pages.foldl (fun st page => page.foldl combineStep st) {})


/-- Lines of one combined block, per the claim: the block's text split on
line breaks. -/
def blockLines (l : Lyric) : List Str := splitOnChar '\n' l.text


/-- Lines contributed by one input fragment: nothing when its text is
empty, otherwise its text split on line breaks. -/
def fragLines (l : Lyric) : List Str :=
  if l.text = [] then [] else splitOnChar '\n' l.text


/-- State for the flush-counting process stated by the claim's words. -/
structure SpecFlushState where
  cur : Option Str := none
  pending : Bool := false
  count : Nat := 0
deriving DecidableEq


/-- Stated from the claim: a flush happens exactly when a fragment's
section differs from the running current section while the accumulator
is non-empty; the accumulator becomes non-empty when a fragment
contributes non-empty text. -/
def specFlushStep (st : SpecFlushState) (lyric : Lyric) : SpecFlushState :=
  let s := lyric.sect.getD []
  let st :=
    if some s ≠ st.cur ∧ st.pending then
      { st with count := st.count + 1, pending := false }
    else st
  { st with
    cur := some s
    pending := if lyric.text = [] then st.pending else true }


/-- Stated from the claim: number of flushes over a fragment stream,
plus one trailing flush when the accumulator ends non-empty. -/
def specFlushCount (frags : List Lyric) : Nat :=
  let st := frags.foldl specFlushStep {}
  st.count + (if st.pending then 1 else 0)


/-- Abstraction of the combiner state to the claim's flush-state. -/
def combineAbs (st : CombineState) : SpecFlushState :=
  { cur := st.currentSection
    pending := !st.currentText.isEmpty
    count := st.combined.length }


/-- Python `str.strip()` (restricted to ASCII whitespace, which covers
the characters this pipeline handles): drop whitespace from both ends. -/
def pyStrip (s : Str) : Str :=
  ((s.dropWhile Char.isWhitespace).reverse.dropWhile Char.isWhitespace).reverse


/-- Python `s.replace(pat, repl)` with non-empty `pat`, fuelled by the
length of `s` (each step consumes at least one character). -/
def replaceAllAux (pat repl : Str) : Nat → Str → Str
  | 0, s => s
  | _ + 1, [] => []
  | fuel + 1, x :: xs =>
    if pat.isPrefixOf (x :: xs) then
      repl ++ replaceAllAux pat repl fuel (xs.drop (pat.length - 1))
    else x :: replaceAllAux pat repl fuel xs


/-- Python `s.replace(pat, repl)`: replace all non-overlapping
occurrences, left to right; the empty pattern inserts `repl` before every
character and at the end. -/
def replaceAll (pat repl s : Str) : Str :=
  if pat = [] then s.flatMap (fun c => repl ++ [c]) ++ repl
  else replaceAllAux pat repl s.length s


/-- Embedding of `_organize_lyrics`: keep the entries whose stripped text
is non-empty (the kept entry is the original one, not stripped). -/
def organizeLyrics (allLyrics : List Lyric) : List Lyric :=
  allLyrics.filter (fun l => !(pyStrip l.text).isEmpty)


/-- Embedding of `segment_lyrics_for_slides`: for each lyric dict, split
its text on line breaks; each line whose stripped form is non-blank
becomes one single-entry segment carrying the stripped line, the parent's
section (via `get('section','')`) and its `line_number` / `page` values
with `dict.get` default 1.  The `max_lines_per_slide` parameter is never
read by the loop and is not modelled; the early return for an empty
lyric list coincides with the fold over an empty list. -/
def segmentLyricsForSlides (lyricsData : List Lyric) : List (List Lyric) :=
  lyricsData.flatMap (fun lyric =>
    (splitOnChar '\n' lyric.text).filterMap (fun line =>
      if pyStrip line ≠ [] then
        some [{ text := pyStrip line
                sect := some (lyric.sect.getD [])
                lineNumber := some (lyric.lineNumber.getD 1)
                page := some (lyric.page.getD 1) }]
      else none))


/-- Embedding of the loop body of `_reformat_lyrics_poetically` for one
block.  `stepA` models `_get_poem_reference_structure` (it catches its
own exceptions, so it is total, returning the reference text or `none`);
`stepB` models the Step-B chat call as a function of the reference found
and the block's text (the two prompt variants are built from exactly
these), with `Except.error` modelling a raised exception.  The result is
`none` when the block is skipped (`continue` on empty text); on success
the reply is stripped and its code fences removed; on an exception the
original block is kept unchanged and nothing is propagated. -/
def reformatOne (stepA : Str → Option Str) (stepB : Option Str → Str → Except Str Str)
    (lyric : Lyric) : Option Lyric :=
  if lyric.text = [] then none
  else
    match stepB (stepA lyric.text) lyric.text with
    | .ok reply =>
        some { text := replaceAll "```".data [] (pyStrip reply)
               sect := some (lyric.sect.getD [])
               lineNumber := some (lyric.lineNumber.getD 1)
               page := some (lyric.page.getD 1) }
    | .error _ => some lyric


/-- Embedding of `_reformat_lyrics_poetically` over a block list. -/
def reformatLyricsPoetically (stepA : Str → Option Str)
    (stepB : Option Str → Str → Except Str Str) (lyricsData : List Lyric) : List Lyric :=
  lyricsData.filterMap (reformatOne stepA stepB)


/-- Composition of the lyric-data part of `extract_lyrics_from_pdf`
followed by `segment_lyrics_for_slides`: combine the per-page fragments,
organize, reformat, then segment into slides. -/
def pipelineSegments (pages : List (List Lyric)) (stepA : Str → Option Str)
    (stepB : Option Str → Str → Except Str Str) : List (List Lyric) :=
  segmentLyricsForSlides
    (reformatLyricsPoetically stepA stepB (organizeLyrics (combinePagesLyrics pages)))


/-- Python `s.upper()` (ASCII). -/
def pyUpper (s : Str) : Str := s.map Char.toUpper


/-- Body of the loop of `export_lyrics_to_text` for one entry, over the
state (current_section, file content written so far): when the entry's
section (via `get('section','')`) is truthy and differs from
`current_section`, write the bracketed uppercase header and update
`current_section`; then always write the entry's text plus a newline. -/
def exportStep (st : Option Str × Str) (lyric : Lyric) : Option Str × Str :=
  let sct := lyric.sect.getD []
  let st :=
    if sct ≠ [] ∧ some sct ≠ st.1 then
      (some sct, st.2 ++ '\n' :: '[' :: pyUpper sct ++ ']' :: ['\n'])
    else st
  (st.1, st.2 ++ lyric.text ++ ['\n'])


/-- Embedding of `export_lyrics_to_text`: the full content written to the
file, starting from `current_section = None` and an empty file. -/
def exportLyricsToText (lyricsData : List Lyric) : Str :=
  (lyricsData.foldl exportStep (none, [])).2

/-- Stated from the amended claim: the header text emitted before one
entry — the bracketed uppercase section when the entry's section is
non-empty and differs from the section of the most recently emitted
header (`cur`, `none` while no header has been emitted), and nothing
otherwise. -/
def specHeaderFor (cur : Option Str) (lyric : Lyric) : Str :=
  let s := lyric.sect.getD []
  if s ≠ [] ∧ some s ≠ cur then '\n' :: '[' :: pyUpper s ++ ']' :: ['\n'] else []

/-- Stated from the amended claim: the section of the most recently
emitted header after one entry — it changes exactly when a header is
emitted, so empty-section entries never reset it. -/
def specRunningHeader (cur : Option Str) (lyric : Lyric) : Option Str :=
  let s := lyric.sect.getD []
  if s ≠ [] ∧ some s ≠ cur then some s else cur

/-- Stated from the amended claim: the whole export is, entry by entry,
the header due before the entry (per `specHeaderFor`) followed by the
entry's text and a newline, threading the last emitted header's
section. -/
def specExport (cur : Option Str) : List Lyric → Str
  | [] => []
  | l :: ls => specHeaderFor cur l ++ l.text ++ ['\n'] ++ specExport (specRunningHeader cur l) ls


/-- Embedding of the `while quality >= 20` loop of `_compress_image`
together with the half-resolution last resort, abstracted over the JPEG
encoder: `sizeAt q` is the byte size of the full-resolution re-encoding
at quality `q`, and `halfSize` the byte size of the half-resolution
re-encoding at the fixed quality 70.  The result is the byte size of the
returned buffer. -/
def compressGo (sizeAt : Nat → Nat) (halfSize maxSize quality : Nat) : Nat :=
  if h : 20 ≤ quality then
    if sizeAt quality ≤ maxSize then sizeAt quality
    else compressGo sizeAt halfSize maxSize (quality - 10)
  else halfSize
termination_by quality
decreasing_by simp_wf; omega


/-- Embedding of `_compress_image`: the loop starts at quality 85. -/
def compressImage (sizeAt : Nat → Nat) (halfSize maxSize : Nat) : Nat :=
  compressGo sizeAt halfSize maxSize 85


/-- Model of a hostile-but-realistic JPEG encoder for the counterexample:
only quality levels at most 20 produce a small buffer; everything else
(including the half-resolution re-encoding at quality 70) is 100 bytes. -/
def cexSizeAt (q : Nat) : Nat := if q ≤ 20 then 10 else 100


/-- Which output files a pipeline run wrote. -/
structure RunFiles where
  deckWritten : Bool := false
  textWritten : Bool := false
deriving DecidableEq


/-- Embedding of `process_sheet_music_with_gpt4` from the point where
extraction has produced `lyrics_data`: when no lyrics were extracted it
prints a message and returns `None` — no exception; otherwise it exports
the lyrics text file when requested and then creates and saves the deck
(`deckSave` models the save, the hard failure point whose exception
propagates).  `.ok none` is the early `return`; `.ok (some ())` is the
normal return of the processor.  The second component records which
output files were written. -/
def processSheetMusic (lyricsData : List Lyric) (deckSave : Except Str Unit)
    (exportText : Bool) : Except Str (Option Unit) × RunFiles :=
  if lyricsData.isEmpty then (.ok none, {})
  else
    match deckSave with
    | .ok _ => (.ok (some ()), { deckWritten := true, textWritten := exportText })
    | .error e => (.error e, { deckWritten := false, textWritten := exportText })


/-- Embedding of the CLI wrapper `run_gpt4_cli.py`: the `try/except`
around the pipeline call, as (exit code, message printed). -/
def cliMain (runResult : Except Str (Option Unit)) : Nat × Str :=
  match runResult with
  | .ok _ => (0, "Success".data)
  | .error e => (1, "Error: ".data ++ e)


/-- JSON response of the `/process` endpoint. -/
structure WebResp where
  success : Bool
  error : Option Str := none
  lyricsText : Option Str := none
  pptxPath : Option Str := none
deriving DecidableEq


/-- Embedding of the inner handler of `/process` after the upload has
been saved: run the pipeline; on an exception answer `success:false`
with the message; otherwise read the exported lyrics file when it
exists (empty text when it does not) and answer `success:true` with the
output's base name. -/
def webProcessRun (run : Except Str (Option Unit) × RunFiles) (outName : Str)
    (lyricsFileContent : Str) : WebResp :=
  match run.1 with
  | .error e => { success := false, error := some ("Processing failed: ".data ++ e) }
  | .ok _ =>
      { success := true
        lyricsText := some (if run.2.textWritten then lyricsFileContent else [])
        pptxPath := some outName }


/-- Response plus the files a `/process` request wrote. -/
structure ProcessEffects where
  response : WebResp
  uploadWrites : List Str := []
  outputWrites : List Str := []
deriving DecidableEq


/-- Embedding of the `/process` endpoint of `simple_web.py`: the guard
chain (no `file` part; falsy file or filename not ending in `.pdf`;
empty `api_key`), then saving the upload and running the pipeline.
`fileField` is the uploaded filename when a `file` part is present
(Flask's falsiness of a file object with an empty filename is the
`filename = []` disjunct); `apiKey` is `request.form.get('api_key','')`.
The write lists record every path written by the request. -/
def processEndpoint (fileField : Option Str) (apiKey : Str) (lyricsData : List Lyric)
    (deckSave : Except Str Unit) (inName outName lyricsName : Str)
    (lyricsFileContent : Str) : ProcessEffects :=
  match fileField with
  | none => { response := { success := false, error := some "No file uploaded".data } }
  | some filename =>
    if filename = [] ∨ ¬ (".pdf".data.isSuffixOf filename) then
      { response := { success := false, error := some "Please upload a PDF file".data } }
    else if apiKey = [] then
      { response := { success := false
                      error := some "Please provide an OpenAI API key".data } }
    else
      let run := processSheetMusic lyricsData deckSave true
      { response := webProcessRun run outName lyricsFileContent
        uploadWrites := [inName]
        outputWrites :=
          (if run.2.textWritten then [lyricsName] else []) ++
            (if run.2.deckWritten then [outName] else []) }


/-- Output-folder contents, as an association list path ↦ bytes. -/
def lookupFile : List (Str × Str) → Str → Option Str
  | [], _ => none
  | e :: rest, path => if e.1 = path then some e.2 else lookupFile rest path


/-- Model of `os.remove`: drop the entries at `path`. -/
def removeFile : List (Str × Str) → Str → List (Str × Str)
  | [], _ => []
  | e :: rest, path => if e.1 = path then removeFile rest path else e :: removeFile rest path


/-- Python `os.path.join(folder, filename)`: an absolute second argument
replaces the first. -/
def joinPath (folder filename : Str) : Str :=
  match filename with
  | '/' :: _ => filename
  | _ => folder ++ '/' :: filename


/-- Path of a requested download inside `OUTPUT_FOLDER`. -/
def downloadPath (filename : Str) : Str := joinPath "/tmp/outputs".data filename


/-- Path of the paired lyrics export:
`file_path.replace('.pptx', '_lyrics.txt')`. -/
def lyricsPathOf (path : Str) : Str := replaceAll ".pptx".data "_lyrics.txt".data path


/-- Result of a `/download/<filename>` request: the 404 branch or a 200
carrying the deck bytes (with the fixed attachment headers). -/
inductive DlResult where
  | notFound
  | ok (data : Str)
deriving DecidableEq


/-- Embedding of `download_file` of `simple_web.py`: 404 when the path
does not exist; otherwise read the bytes, delete the file, delete the
paired lyrics export when present, and return the bytes, together with
the resulting output-folder contents. -/
def downloadFile (fs : List (Str × Str)) (filename : Str) : DlResult × List (Str × Str) :=
  let path := downloadPath filename
  match lookupFile fs path with
  | none => (.notFound, fs)
  | some data =>
    let fs1 := removeFile fs path
    let fs2 :=
      if (lookupFile fs1 (lyricsPathOf path)).isSome then removeFile fs1 (lyricsPathOf path)
      else fs1
    (.ok data, fs2)


/-- Concrete output folder for the download witness. -/
def dlFsEx : List (Str × Str) :=
  [("/tmp/outputs/a.pptx".data, "DECK".data),
    ("/tmp/outputs/a_lyrics.txt".data, "TXT".data)]


/-- JSON value, as produced by `json.loads`.  Integer literals become
`jnum`; number literals with a fraction or exponent are kept as their
lexeme (`jdec`) — their numeric value is never read by this pipeline.
Objects are built with `setField`, so their field lists have unique keys
in first-insertion order, matching Python dict semantics (a duplicate
key overwrites in place). -/
inductive JVal where
  | jnull
  | jbool (b : Bool)
  | jnum (n : Int)
  | jdec (lexeme : Str)
  | jstr (s : Str)
  | jarr (items : List JVal)
  | jobj (fields : List (Str × JVal))


/-- Python dict assignment `d[k] = v`: overwrite in place when the key
exists, else append. -/
def setField (k : Str) (v : JVal) (fields : List (Str × JVal)) : List (Str × JVal) :=
  if fields.any (fun f => f.1 == k) then
    fields.map (fun f => if f.1 = k then (k, v) else f)
  else fields ++ [(k, v)]


/-- Python dict read `d[k]` / `d.get(k)`. -/
def lookupField : List (Str × JVal) → Str → Option JVal
  | [], _ => none
  | f :: rest, k => if f.1 = k then some f.2 else lookupField rest k


def getJField (j : JVal) (k : Str) : Option JVal :=
  match j with
  | .jobj fields => lookupField fields k
  | _ => none


def isJObj : JVal → Bool
  | .jobj _ => true
  | _ => false


/-- JSON insignificant whitespace. -/
def skipWs (s : Str) : Str :=
  s.dropWhile (fun c => c == ' ' || c == '\t' || c == '\n' || c == '\r')


def parseHexDigit (c : Char) : Option Nat :=
  if '0' ≤ c ∧ c ≤ '9' then some (c.toNat - 48)
  else if 'a' ≤ c ∧ c ≤ 'f' then some (c.toNat - 87)
  else if 'A' ≤ c ∧ c ≤ 'F' then some (c.toNat - 55)
  else none


/-- JSON string body parser (called after the opening quote): returns
the decoded content and the rest after the closing quote.  Escapes are
decoded; a `\u` escape becomes the character of its code point
(surrogate pairs are not recombined — no input of interest uses them). -/
def parseJStr : Nat → Str → Option (Str × Str)
  | 0, _ => none
  | _ + 1, [] => none
  | fuel + 1, c :: rest =>
    if c = '"' then some ([], rest)
    else if c = '\\' then
      match rest with
      | [] => none
      | e :: rest2 =>
        if e = 'u' then
          match rest2 with
          | h1 :: h2 :: h3 :: h4 :: rest3 =>
            match parseHexDigit h1, parseHexDigit h2, parseHexDigit h3, parseHexDigit h4 with
            | some a, some b, some c2, some d =>
              match parseJStr fuel rest3 with
              | some (tail, rem) =>
                  some (Char.ofNat (((a * 16 + b) * 16 + c2) * 16 + d) :: tail, rem)
              | none => none
            | _, _, _, _ => none
          | _ => none
        else
          match
            (if e = '"' then some '"'
             else if e = '\\' then some '\\'
             else if e = '/' then some '/'
             else if e = 'n' then some '\n'
             else if e = 't' then some '\t'
             else if e = 'r' then some '\r'
             else if e = 'b' then some (Char.ofNat 8)
             else if e = 'f' then some (Char.ofNat 12)
             else none) with
          | some ch =>
            match parseJStr fuel rest2 with
            | some (tail, rem) => some (ch :: tail, rem)
            | none => none
          | none => none
    else
      match parseJStr fuel rest with
      | some (tail, rem) => some (c :: tail, rem)
      | none => none


def digitsToNat (s : Str) : Nat :=
  s.foldl (fun acc c => acc * 10 + (c.toNat - 48)) 0


/-- JSON number parser: an optional minus, an integer part without
leading zeros, and an optional fraction and exponent; a plain integer
becomes `jnum`, anything with a fraction or exponent keeps its lexeme as
`jdec`. -/
def parseJNum (s : Str) : Option (JVal × Str) :=
  let negLex : Str × Str := match s with | '-' :: rest => (['-'], rest) | _ => ([], s)
  let intDigits := negLex.2.takeWhile Char.isDigit
  let s2 := negLex.2.dropWhile Char.isDigit
  if intDigits = [] then none
  else if 1 < intDigits.length ∧ intDigits.headI = '0' then none
  else
    let fracPart : Option (Str × Str) :=
      match s2 with
      | '.' :: rest =>
          if rest.takeWhile Char.isDigit = [] then none
          else some ('.' :: rest.takeWhile Char.isDigit, rest.dropWhile Char.isDigit)
      | _ => some ([], s2)
    match fracPart with
    | none => none
    | some (fracLex, s3) =>
      let expPart : Option (Str × Str) :=
        match s3 with
        | c :: rest =>
          if c = 'e' ∨ c = 'E' then
            let signLex : Str × Str :=
              match rest with
              | '+' :: r => (['+'], r)
              | '-' :: r => (['-'], r)
              | _ => ([], rest)
            if signLex.2.takeWhile Char.isDigit = [] then none
            else some (c :: signLex.1 ++ signLex.2.takeWhile Char.isDigit,
              signLex.2.dropWhile Char.isDigit)
          else some ([], s3)
        | [] => some ([], s3)
      match expPart with
      | none => none
      | some (expLex, s4) =>
        if fracLex = [] ∧ expLex = [] then
          some (.jnum (if negLex.1 = [] then (digitsToNat intDigits : Int)
            else -(digitsToNat intDigits : Int)), s4)
        else
          some (.jdec (negLex.1 ++ intDigits ++ fracLex ++ expLex), s4)


mutual

/-- JSON value parser (fuelled): leading whitespace, then an object,
array, string, literal or number, returning the rest of the input. -/
def parseJVal : Nat → Str → Option (JVal × Str)
  | 0, _ => none
  | fuel + 1, s =>
    match skipWs s with
    | [] => none
    | c :: rest =>
      if c = '\x7b' then
        match skipWs rest with
        | '\x7d' :: rest2 => some (.jobj [], rest2)
        | _ =>
          match parseJMembers fuel rest [] with
          | some (fields, rest2) => some (.jobj fields, rest2)
          | none => none
      else if c = '[' then
        match skipWs rest with
        | ']' :: rest2 => some (.jarr [], rest2)
        | _ =>
          match parseJItems fuel rest with
          | some (items, rest2) => some (.jarr items, rest2)
          | none => none
      else if c = '"' then
        match parseJStr (rest.length + 1) rest with
        | some (str, rest2) => some (.jstr str, rest2)
        | none => none
      else if c = 't' then
        if "rue".data.isPrefixOf rest then some (.jbool true, rest.drop 3) else none
      else if c = 'f' then
        if "alse".data.isPrefixOf rest then some (.jbool false, rest.drop 4) else none
      else if c = 'n' then
        if "ull".data.isPrefixOf rest then some (.jnull, rest.drop 3) else none
      else parseJNum (c :: rest)

/-- Object members parser: `"key" : value` pairs separated by commas and
closed by a brace, accumulating fields with dict-assignment semantics. -/
def parseJMembers : Nat → Str → List (Str × JVal) → Option (List (Str × JVal) × Str)
  | 0, _, _ => none
  | fuel + 1, s, acc =>
    match skipWs s with
    | '"' :: rest =>
      match parseJStr (rest.length + 1) rest with
      | some (key, rest2) =>
        match skipWs rest2 with
        | ':' :: rest3 =>
          match parseJVal fuel rest3 with
          | some (v, rest4) =>
            match skipWs rest4 with
            | ',' :: rest5 => parseJMembers fuel rest5 (setField key v acc)
            | '\x7d' :: rest5 => some (setField key v acc, rest5)
            | _ => none
          | none => none
        | _ => none
      | none => none
    | _ => none

/-- Array items parser: values separated by commas, closed by a bracket. -/
def parseJItems : Nat → Str → Option (List JVal × Str)
  | 0, _ => none
  | fuel + 1, s =>
    match parseJVal fuel s with
    | some (v, rest) =>
      match skipWs rest with
      | ',' :: rest2 =>
        match parseJItems fuel rest2 with
        | some (items, rest3) => some (v :: items, rest3)
        | none => none
      | ']' :: rest2 => some ([v], rest2)
      | _ => none
    | none => none

end


/-- Model of `json.loads`: parse one JSON value and require only
whitespace after it. -/
def jparse (s : Str) : Option JVal :=
  match parseJVal (2 * s.length + 2) s with
  | some (v, rest) => if skipWs rest = [] then some v else none
  | none => none


/-- Model of `re.search(r'\x7b.*\x7d', text, re.DOTALL)`: the greedy
match runs from the first opening brace to the last closing brace of the
whole text; there is no match when no closing brace follows the first
opening brace. -/
def braceSpan (s : Str) : Option Str :=
  match s.dropWhile (fun c => !(c == '\x7b')) with
  | [] => none
  | b :: rest =>
    if rest.any (fun c => c == '\x7d') then
      some (((b :: rest).reverse.dropWhile (fun c => !(c == '\x7d'))).reverse)
    else none


/-- Model of `lyrics_data.get('lyrics', [])` together with the page
assignment loop's dynamic typing: the parsed reply must be an object; a
missing `lyrics` key defaults to the empty list; a non-list value, or a
list with a non-dict element, makes the loop raise (`TypeError`), which
the caller's handler turns into an empty result. -/
def lyricsFromVal : Option JVal → Option (List JVal)
  | none => some []
  | some (.jarr items) => if items.all isJObj then some items else none
  | some _ => none


def lyricsListOf (j : JVal) : Option (List JVal) :=
  match j with
  | .jobj fields => lyricsFromVal (lookupField fields "lyrics".data)
  | _ => none


/-- The page-assignment `lyric['page'] = page_num` on one entry. -/
def setJPage (pageNum : Nat) : JVal → JVal
  | .jobj fields => .jobj (setField "page".data (.jnum (pageNum : Int)) fields)
  | v => v


/-- Embedding of `_extract_lyrics_with_gpt4`: `net` models the chat
call (`Except.error` is a raised exception, `.ok` carries the reply
text).  A network failure, a missing regex match, a JSON parse failure
or a malformed `lyrics` value all yield the empty fragment list; on
success every returned fragment is an object with `page` set to the
1-based page number. -/
def fragsOf (lsOpt : Option (List JVal)) (pageNum : Nat) : List JVal :=
  match lsOpt with
  | none => []
  | some ls => ls.map (setJPage pageNum)


def pageLyricsOf (jOpt : Option JVal) (pageNum : Nat) : List JVal :=
  match jOpt with
  | none => []
  | some j => fragsOf (lyricsListOf j) pageNum


def spanLyricsOf (spanOpt : Option Str) (pageNum : Nat) : List JVal :=
  match spanOpt with
  | none => []
  | some span => pageLyricsOf (jparse span) pageNum


def extractLyricsWithGpt4 (net : Except Str Str) (pageNum : Nat) : List JVal :=
  match net with
  | .error _ => []
  | .ok reply => spanLyricsOf (braceSpan reply) pageNum


/-- The first brace-delimited JSON object of the counterexample reply:
an object whose `lyrics` list holds one fragment. -/
def c5Obj : Str := "\x7b\"lyrics\": [\x7b\"text\": \"a\"\x7d]\x7d".data


theorem splitOnChar_ne_nil (c : Char) (s : Str) : splitOnChar c s ≠ [] := by
  cases s with
  | nil => simp [splitOnChar]
  | cons x xs =>
    simp only [splitOnChar]
    by_cases hx : x = c <;> simp [hx]


theorem splitOnChar_append_cons (c : Char) (a b : Str) :
    splitOnChar c (a ++ c :: b) = splitOnChar c a ++ splitOnChar c b := by
  induction a with
  | nil =>
    simp [splitOnChar]
  | cons x a ih =>
    cases h : splitOnChar c a with
    | nil => exact absurd h (splitOnChar_ne_nil c a)
    | cons y ys =>
      rw [List.cons_append]
      rw [splitOnChar, splitOnChar, ih, h]
      by_cases hx : x = c <;> simp [hx]


theorem splitOnChar_joinWith (c : Char) (xs : List Str) (h : xs ≠ []) :
    splitOnChar c (joinWith c xs) = xs.flatMap (splitOnChar c) := by
  induction xs with
  | nil => exact absurd rfl h
  | cons x xs ih =>
    cases xs with
    | nil => simp [joinWith, List.flatMap]
    | cons y ys =>
      simp only [joinWith, List.flatMap_cons]
      rw [splitOnChar_append_cons, ih (by simp)]
      simp [List.flatMap]


theorem not_isEmpty_eq_true_iff {α : Type} (l : List α) : ((!l.isEmpty) = true) ↔ l ≠ [] := by
  cases l <;> simp


theorem combineAbs_step (st : CombineState) (l : Lyric) :
    combineAbs (combineStep st l) = specFlushStep (combineAbs st) l := by
  by_cases hflush : some (l.sect.getD []) ≠ st.currentSection ∧ st.currentText ≠ [] <;>
    by_cases htext : l.text = [] <;>
      simp [combineStep, specFlushStep, combineAbs, hflush, htext,
        not_isEmpty_eq_true_iff, List.isEmpty_iff]


theorem combineAbs_foldl (frags : List Lyric) (st : CombineState) :
    combineAbs (frags.foldl combineStep st) = frags.foldl specFlushStep (combineAbs st) := by
  induction frags generalizing st with
  | nil => rfl
  | cons f fs ih => simp only [List.foldl_cons, ih, combineAbs_step]


theorem combineFinish_length (st : CombineState) :
    (combineFinish st).length =
      st.combined.length + (if st.currentText ≠ [] then 1 else 0) := by
  simp only [combineFinish]
  by_cases h : st.currentText ≠ [] <;> simp [h]


theorem combineStep_lines (st : CombineState) (f : Lyric) :
    (combineStep st f).combined.flatMap blockLines ++
        (combineStep st f).currentText.flatMap (splitOnChar '\n') =
      st.combined.flatMap blockLines ++
        st.currentText.flatMap (splitOnChar '\n') ++ fragLines f := by
  simp only [combineStep]
  by_cases hflush : some (f.sect.getD []) ≠ st.currentSection ∧ st.currentText ≠ []
  · rw [if_pos hflush]
    by_cases htext : f.text = [] <;>
      simp [htext, fragLines, blockLines, List.flatMap_append,
        splitOnChar_joinWith '\n' st.currentText hflush.2, List.append_assoc]
  · rw [if_neg hflush]
    by_cases htext : f.text = [] <;>
      simp [htext, fragLines, List.flatMap_append, List.append_assoc]


theorem combineFold_lines (frags : List Lyric) (st : CombineState) :
    (combineFinish (frags.foldl combineStep st)).flatMap blockLines =
      st.combined.flatMap blockLines ++
        st.currentText.flatMap (splitOnChar '\n') ++
        frags.flatMap fragLines := by
  induction frags generalizing st with
  | nil =>
    simp only [List.foldl_nil, List.flatMap_nil, List.append_nil, combineFinish]
    by_cases h : st.currentText = []
    · rw [if_neg (fun hc => hc h)]
      simp [h]
    · rw [if_pos h]
      simp only [List.flatMap_append, List.flatMap_cons, List.flatMap_nil, List.append_nil,
        blockLines]
      rw [splitOnChar_joinWith '\n' st.currentText h]
  | cons f fs ih =>
    simp only [List.foldl_cons, List.flatMap_cons]
    rw [ih, combineStep_lines st f]
    simp [List.append_assoc]


theorem combineFold_pages (pages : List (List Lyric)) (st : CombineState) :
    pages.foldl (fun st page => page.foldl combineStep st) st =
      (pages.flatMap id).foldl combineStep st := by
  induction pages generalizing st with
  | nil => rfl
  | cons p ps ih => simp [List.flatMap_cons, List.foldl_append, ih]


/-- C1 (amended).  For every ordered list of per-page fragment lists, the
Cross-Page Combiner produces blocks such that splitting each block's text
on line breaks and concatenating across blocks in order yields exactly
the concatenation of the line-break-splits of the fragments' non-empty
texts, in original (page order, then in-page) order — so no fragment is
dropped except those with empty text, but a fragment text that itself
contains a line break contributes its several lines, not one list entry.
Moreover the number of blocks equals the number of flushes, where a
flush happens exactly when a fragment's section differs from the running
current section while the accumulator is non-empty, plus one trailing
flush when the accumulator ends non-empty. -/
theorem c1_combiner_lines (pages : List (List Lyric)) :
    (combinePagesLyrics pages).flatMap blockLines =
        (pages.flatMap id).flatMap fragLines ∧
      (combinePagesLyrics pages).length = specFlushCount (pages.flatMap id) := by
  have hfold : pages.foldl (fun st page => page.foldl combineStep st) {} =
      (pages.flatMap id).foldl combineStep ({} : CombineState) :=
    combineFold_pages pages {}
  constructor
  · have h := combineFold_lines (pages.flatMap id) {}
    simp only [combinePagesLyrics, hfold]
    simpa using h
  · have h := combineAbs_foldl (pages.flatMap id) {}
    simp only [combinePagesLyrics, hfold, specFlushCount, combineFinish_length]
    have hcount : ((pages.flatMap id).foldl combineStep {}).combined.length =
        ((pages.flatMap id).foldl specFlushStep (combineAbs {})).count := by
      rw [← h]; rfl
    have hpend : (!((pages.flatMap id).foldl combineStep {}).currentText.isEmpty) =
        ((pages.flatMap id).foldl specFlushStep (combineAbs {})).pending := by
      rw [← h]; rfl
    have habs : combineAbs {} = ({} : SpecFlushState) := rfl
    rw [habs] at hcount hpend
    rw [hcount, ← hpend]
    by_cases hc : ((pages.flatMap id).foldl combineStep {}).currentText = [] <;>
      simp [hc, List.isEmpty_iff]


/-- C1 counterexample.  A single fragment whose text spans two lines:
the combiner yields one block with that two-line text, so splitting the
block on line breaks gives two lines, not the single fragment text the
claim demands. -/
theorem c1_combiner_counterexample :
    ¬ ((combinePagesLyrics [[{ text := "a\nb".data, sect := some "v".data }]]).flatMap
          blockLines =
        ([[({ text := "a\nb".data, sect := some "v".data } : Lyric)]].flatMap id).filterMap
          (fun f => if f.text = [] then none else some f.text)) := by
  decide


theorem filterMap_strip {α : Type} (f : Str → α) (lines : List Str) :
    lines.filterMap (fun line => if pyStrip line ≠ [] then some (f (pyStrip line)) else none) =
      ((lines.map pyStrip).filter (fun l => !l.isEmpty)).map f := by
  induction lines with
  | nil => rfl
  | cons x xs ih =>
    rw [List.filterMap_cons, List.map_cons, List.filter_cons]
    by_cases h : pyStrip x = []
    · rw [if_neg (not_not_intro h), if_neg (by simp [h])]
      exact ih
    · rw [if_pos h, if_pos (by simp [List.isEmpty_iff, h]), List.map_cons]
      exact congrArg (List.cons (f (pyStrip x))) ih


theorem flatMap_seg_text (ls : List Str) (sct : Option Str) (ln pg : Nat) :
    (ls.map (fun line =>
        [{ text := line, sect := sct, lineNumber := some ln, page := some pg }])).flatMap
      (fun seg => seg.map Lyric.text) = ls := by
  induction ls with
  | nil => rfl
  | cons l ls ih => simp [ih]


theorem flatMap_entries_text (bs : List Lyric) :
    (bs.flatMap (fun b =>
        (((splitOnChar '\n' b.text).map pyStrip).filter (fun l => !l.isEmpty)).map
          (fun line =>
            [{ text := line
               sect := some (b.sect.getD [])
               lineNumber := some (b.lineNumber.getD 1)
               page := some (b.page.getD 1) }]))).flatMap (fun seg => seg.map Lyric.text) =
      bs.flatMap
        (fun b => ((splitOnChar '\n' b.text).map pyStrip).filter (fun l => !l.isEmpty)) := by
  induction bs with
  | nil => rfl
  | cons b bs ih =>
    simp only [List.flatMap_cons, List.flatMap_append, ih]
    congr 1
    exact flatMap_seg_text _ _ _ _


/-- C2 (amended).  For every list of reformatted blocks, the Slide
Segmenter emits, in order, one single-entry segment per line of each
block's text whose stripped form is non-blank; the segment's text is the
stripped line (not the raw line), and the entry carries the parent
block's section and its `line_number` and `page` values (with default 1
when the key is absent).  Consequently flattening all segments' entry
texts equals flattening all blocks' texts split on line breaks with each
line stripped of surrounding whitespace and blank (whitespace-only)
lines removed. -/
theorem c2_segmenter_roundtrip (blocks : List Lyric) :
    (segmentLyricsForSlides blocks).flatMap (fun seg => seg.map Lyric.text) =
        blocks.flatMap
          (fun b => ((splitOnChar '\n' b.text).map pyStrip).filter (fun l => !l.isEmpty)) ∧
      segmentLyricsForSlides blocks =
        blocks.flatMap (fun b =>
          (((splitOnChar '\n' b.text).map pyStrip).filter (fun l => !l.isEmpty)).map
            (fun line =>
              [{ text := line
                 sect := some (b.sect.getD [])
                 lineNumber := some (b.lineNumber.getD 1)
                 page := some (b.page.getD 1) }])) := by
  have h2 : segmentLyricsForSlides blocks =
      blocks.flatMap (fun b =>
        (((splitOnChar '\n' b.text).map pyStrip).filter (fun l => !l.isEmpty)).map
          (fun line =>
            [{ text := line
               sect := some (b.sect.getD [])
               lineNumber := some (b.lineNumber.getD 1)
               page := some (b.page.getD 1) }])) := by
    unfold segmentLyricsForSlides
    congr 1
    funext b
    exact filterMap_strip
      (fun line =>
        ([{ text := line
            sect := some (b.sect.getD [])
            lineNumber := some (b.lineNumber.getD 1)
            page := some (b.page.getD 1) }] : List Lyric))
      (splitOnChar '\n' b.text)
  refine ⟨?_, h2⟩
  rw [h2]
  exact flatMap_entries_text blocks


/-- C2 counterexample.  A block whose single line carries surrounding
whitespace: the segmenter's entry text is the stripped line `"a"`, while
the claim's right-hand side (the block's lines with blank lines removed,
whether "blank" means empty or whitespace-only) keeps the raw line
`" a "`, so the claimed equality fails. -/
theorem c2_segmenter_counterexample :
    ¬ ((segmentLyricsForSlides [{ text := " a ".data, sect := some "s".data }]).flatMap
          (fun seg => seg.map Lyric.text) =
        [({ text := " a ".data, sect := some "s".data } : Lyric)].flatMap
          (fun b => (splitOnChar '\n' b.text).filter (fun l => !(pyStrip l).isEmpty))) := by
  decide


/-- C3 (confirmed).  For every combined block with non-empty text, if the
text capability raises during the Step-B reformatting call, the Poetic
Reformatter keeps the input block exactly (identity fallback); the
exception is consumed by the handler, never propagated (the embedding is
a total function into blocks, not into `Except`). -/
theorem c3_reformatter_fallback (stepA : Str → Option Str)
    (stepB : Option Str → Str → Except Str Str) (l : Lyric) (e : Str)
    (htext : l.text ≠ []) (herr : stepB (stepA l.text) l.text = .error e) :
    reformatOne stepA stepB l = some l ∧
      reformatLyricsPoetically stepA stepB [l] = [l] := by
  have h1 : reformatOne stepA stepB l = some l := by
    simp [reformatOne, htext, herr]
  exact ⟨h1, by simp [reformatLyricsPoetically, h1]⟩


theorem c3_reformatter_fallback_witness :
    reformatOne (fun _ => none) (fun _ _ => .error "boom".data)
        { text := "x".data, sect := some "v".data } =
      some { text := "x".data, sect := some "v".data } :=
  (c3_reformatter_fallback (fun _ => none) (fun _ _ => .error "boom".data)
    { text := "x".data, sect := some "v".data } "boom".data (by decide) rfl).1


theorem combineStep_page_none (st : CombineState) (f : Lyric)
    (h : ∀ b ∈ st.combined, b.page = none) :
    ∀ b ∈ (combineStep st f).combined, b.page = none := by
  intro b hb
  by_cases hflush : some (f.sect.getD []) ≠ st.currentSection ∧ st.currentText ≠ [] <;>
    simp only [combineStep, hflush, if_pos, if_neg, ite_true, ite_false, if_true, if_false] at hb
  all_goals first
    | exact h b hb
    | (rw [if_pos hflush] at hb
       rcases List.mem_append.mp hb with h1 | h1
       · exact h b h1
       · simp only [List.mem_singleton] at h1
         simp [h1])


theorem combineFold_page_none (frags : List Lyric) (st : CombineState)
    (h : ∀ b ∈ st.combined, b.page = none) :
    ∀ b ∈ combineFinish (frags.foldl combineStep st), b.page = none := by
  induction frags generalizing st with
  | nil =>
    intro b hb
    simp only [List.foldl_nil, combineFinish] at hb
    by_cases hc : st.currentText ≠ []
    · rw [if_pos hc] at hb
      rcases List.mem_append.mp hb with h1 | h1
      · exact h b h1
      · simp only [List.mem_singleton] at h1
        simp [h1]
    · rw [if_neg hc] at hb
      exact h b hb
  | cons f fs ih =>
    intro b hb
    simp only [List.foldl_cons] at hb
    exact ih (combineStep st f) (combineStep_page_none st f h) b hb


theorem combinePages_page_none (pages : List (List Lyric)) :
    ∀ b ∈ combinePagesLyrics pages, b.page = none := by
  intro b hb
  simp only [combinePagesLyrics, combineFold_pages pages {}] at hb
  exact combineFold_page_none (pages.flatMap id) {} (by simp) b hb


theorem reformat_page_none_or_one (stepA : Str → Option Str)
    (stepB : Option Str → Str → Except Str Str) (lst : List Lyric)
    (h : ∀ l ∈ lst, l.page = none) :
    ∀ l' ∈ reformatLyricsPoetically stepA stepB lst, l'.page = none ∨ l'.page = some 1 := by
  intro l' hl'
  simp only [reformatLyricsPoetically, List.mem_filterMap] at hl'
  obtain ⟨l, hl, hres⟩ := hl'
  simp only [reformatOne] at hres
  by_cases htext : l.text = []
  · rw [if_pos htext] at hres
    exact absurd hres (by simp)
  · rw [if_neg htext] at hres
    cases hsb : stepB (stepA l.text) l.text with
    | ok reply =>
      rw [hsb] at hres
      simp only [Option.some.injEq] at hres
      right
      rw [← hres]
      simp [h l hl]
    | error e =>
      rw [hsb] at hres
      simp only [Option.some.injEq] at hres
      left
      rw [← hres]
      exact h l hl


theorem segment_entries_page_one (lyricsData : List Lyric)
    (h : ∀ l ∈ lyricsData, l.page = none ∨ l.page = some 1) :
    ∀ seg ∈ segmentLyricsForSlides lyricsData, ∀ entry ∈ seg, entry.page = some 1 := by
  intro seg hseg entry hentry
  simp only [segmentLyricsForSlides, List.mem_flatMap, List.mem_filterMap] at hseg
  obtain ⟨l, hl, line, hline, hres⟩ := hseg
  by_cases hs : pyStrip line = []
  · rw [if_neg (not_not_intro hs)] at hres
    exact absurd hres (by simp)
  · rw [if_pos hs] at hres
    simp only [Option.some.injEq] at hres
    rw [← hres] at hentry
    simp only [List.mem_singleton] at hentry
    rw [hentry]
    rcases h l hl with hp | hp <;> simp [hp]


/-- C10 (confirmed).  Every slide-segment entry produced by the pipeline
(combine, organize, reformat, segment) carries `page = 1`, regardless of
which PDF page its text came from: the combiner's blocks carry no page
key, the reformatter's success path writes `page = lyric.get('page', 1)
= 1`, its fallback keeps a block without a page key, and the segmenter's
`lyric.get('page', 1)` defaults that to 1. -/
theorem c10_segment_page_one (pages : List (List Lyric)) (stepA : Str → Option Str)
    (stepB : Option Str → Str → Except Str Str) :
    ∀ seg ∈ pipelineSegments pages stepA stepB, ∀ entry ∈ seg, entry.page = some 1 := by
  apply segment_entries_page_one
  apply reformat_page_none_or_one
  intro l hl
  exact combinePages_page_none pages l (List.mem_filter.mp hl).1


theorem c10_segment_page_one_witness :
    ({ text := "x".data, sect := some "v".data, lineNumber := some 1,
        page := some 1 } : Lyric).page = some 1 :=
  c10_segment_page_one
    [[{ text := "x".data, sect := some "v".data, lineNumber := some 7, page := some 5 }]]
    (fun _ => none) (fun _ _ => .ok "x".data)
    [{ text := "x".data, sect := some "v".data, lineNumber := some 1, page := some 1 }]
    (by decide)
    { text := "x".data, sect := some "v".data, lineNumber := some 1, page := some 1 }
    (by decide)


theorem compressGo_step (sizeAt : Nat → Nat) (halfSize maxSize q : Nat) (h : 20 ≤ q) :
    compressGo sizeAt halfSize maxSize q =
      if sizeAt q ≤ maxSize then sizeAt q
      else compressGo sizeAt halfSize maxSize (q - 10) := by
  rw [compressGo, dif_pos h]


theorem compressGo_floor (sizeAt : Nat → Nat) (halfSize maxSize q : Nat) (h : q < 20) :
    compressGo sizeAt halfSize maxSize q = halfSize := by
  rw [compressGo, dif_neg (by omega)]


theorem compressGo_fit (sizeAt : Nat → Nat) (halfSize maxSize q : Nat)
    (h20 : 20 ≤ q) (h : sizeAt q ≤ maxSize) :
    compressGo sizeAt halfSize maxSize q ≤ maxSize := by
  rw [compressGo_step sizeAt halfSize maxSize q h20, if_pos h]
  exact h


theorem compressGo_chain (sizeAt : Nat → Nat) (halfSize maxSize q : Nat)
    (h20 : 20 ≤ q) (hrec : compressGo sizeAt halfSize maxSize (q - 10) ≤ maxSize) :
    compressGo sizeAt halfSize maxSize q ≤ maxSize := by
  rw [compressGo_step sizeAt halfSize maxSize q h20]
  by_cases hs : sizeAt q ≤ maxSize
  · rwa [if_pos hs]
  · rwa [if_neg hs]


theorem compressGo_le_or_half (sizeAt : Nat → Nat) (halfSize maxSize : Nat) : ∀ q,
    compressGo sizeAt halfSize maxSize q ≤ maxSize ∨
      compressGo sizeAt halfSize maxSize q = halfSize := by
  intro q
  induction q using Nat.strong_induction_on with
  | _ q ih =>
    by_cases h : 20 ≤ q
    · rw [compressGo_step sizeAt halfSize maxSize q h]
      by_cases hs : sizeAt q ≤ maxSize
      · rw [if_pos hs]; exact Or.inl hs
      · rw [if_neg hs]; exact ih (q - 10) (by omega)
    · rw [compressGo_floor sizeAt halfSize maxSize q (by omega)]
      exact Or.inr rfl


/-- C7 (amended).  The Image Preparer's lossy fallback never returns a
buffer larger than the ceiling when one of the candidates it actually
attempts — full-resolution re-encoding at a quality in
85, 75, 65, 55, 45, 35, 25 (the values taken by `quality`, which starts
at 85 and steps down by 10 while at least 20), or the half-resolution
re-encoding at quality 70 — fits the ceiling; and it always returns one
of these candidate buffers (total, no failure path), so the result is
either at or under the ceiling or it is the half-resolution buffer. -/
theorem c7_compress_ceiling (sizeAt : Nat → Nat) (halfSize maxSize : Nat)
    (h : sizeAt 85 ≤ maxSize ∨ sizeAt 75 ≤ maxSize ∨ sizeAt 65 ≤ maxSize ∨
      sizeAt 55 ≤ maxSize ∨ sizeAt 45 ≤ maxSize ∨ sizeAt 35 ≤ maxSize ∨
      sizeAt 25 ≤ maxSize ∨ halfSize ≤ maxSize) :
    compressImage sizeAt halfSize maxSize ≤ maxSize ∧
      (compressImage sizeAt halfSize maxSize ≤ maxSize ∨
        compressImage sizeAt halfSize maxSize = halfSize) := by
  have hfloor : compressGo sizeAt halfSize maxSize 15 = halfSize :=
    compressGo_floor sizeAt halfSize maxSize 15 (by omega)
  have hmain : compressImage sizeAt halfSize maxSize ≤ maxSize := by
    rw [compressImage]
    rcases h with h | h | h | h | h | h | h | h
    · exact compressGo_fit sizeAt halfSize maxSize 85 (by omega) h
    · exact compressGo_chain sizeAt halfSize maxSize 85 (by omega)
        (compressGo_fit sizeAt halfSize maxSize 75 (by omega) h)
    · exact compressGo_chain sizeAt halfSize maxSize 85 (by omega)
        (compressGo_chain sizeAt halfSize maxSize 75 (by omega)
          (compressGo_fit sizeAt halfSize maxSize 65 (by omega) h))
    · exact compressGo_chain sizeAt halfSize maxSize 85 (by omega)
        (compressGo_chain sizeAt halfSize maxSize 75 (by omega)
          (compressGo_chain sizeAt halfSize maxSize 65 (by omega)
            (compressGo_fit sizeAt halfSize maxSize 55 (by omega) h)))
    · exact compressGo_chain sizeAt halfSize maxSize 85 (by omega)
        (compressGo_chain sizeAt halfSize maxSize 75 (by omega)
          (compressGo_chain sizeAt halfSize maxSize 65 (by omega)
            (compressGo_chain sizeAt halfSize maxSize 55 (by omega)
              (compressGo_fit sizeAt halfSize maxSize 45 (by omega) h))))
    · exact compressGo_chain sizeAt halfSize maxSize 85 (by omega)
        (compressGo_chain sizeAt halfSize maxSize 75 (by omega)
          (compressGo_chain sizeAt halfSize maxSize 65 (by omega)
            (compressGo_chain sizeAt halfSize maxSize 55 (by omega)
              (compressGo_chain sizeAt halfSize maxSize 45 (by omega)
                (compressGo_fit sizeAt halfSize maxSize 35 (by omega) h)))))
    · exact compressGo_chain sizeAt halfSize maxSize 85 (by omega)
        (compressGo_chain sizeAt halfSize maxSize 75 (by omega)
          (compressGo_chain sizeAt halfSize maxSize 65 (by omega)
            (compressGo_chain sizeAt halfSize maxSize 55 (by omega)
              (compressGo_chain sizeAt halfSize maxSize 45 (by omega)
                (compressGo_chain sizeAt halfSize maxSize 35 (by omega)
                  (compressGo_fit sizeAt halfSize maxSize 25 (by omega) h))))))
    · refine compressGo_chain sizeAt halfSize maxSize 85 (by omega) ?_
      refine compressGo_chain sizeAt halfSize maxSize 75 (by omega) ?_
      refine compressGo_chain sizeAt halfSize maxSize 65 (by omega) ?_
      refine compressGo_chain sizeAt halfSize maxSize 55 (by omega) ?_
      refine compressGo_chain sizeAt halfSize maxSize 45 (by omega) ?_
      refine compressGo_chain sizeAt halfSize maxSize 35 (by omega) ?_
      refine compressGo_chain sizeAt halfSize maxSize 25 (by omega) ?_
      have h15 : (25 : Nat) - 10 = 15 := by omega
      rw [h15, hfloor]
      exact h
  exact ⟨hmain, Or.inl hmain⟩


theorem c7_compress_ceiling_witness :
    compressImage (fun q => 100 - q) 50 30 ≤ 30 :=
  (c7_compress_ceiling (fun q => 100 - q) 50 30 (Or.inl (by norm_num))).1


/-- C7 counterexample.  A quality level of at least 20 percent — namely
exactly 20 — produces a 10-byte buffer under the 50-byte ceiling, yet
the loop only attempts qualities 85, 75, 65, 55, 45, 35, 25 (all 100
bytes here) and then the half-resolution fallback (100 bytes), so the
returned buffer is 100 bytes, over the ceiling: the claim as stated
fails. -/
theorem c7_compress_ceiling_counterexample :
    20 ≤ 20 ∧ cexSizeAt 20 ≤ 50 ∧ ¬ compressImage cexSizeAt 100 50 ≤ 50 := by
  have step : ∀ q : Nat, 20 ≤ q → 25 ≤ q → q ≤ 85 →
      compressGo cexSizeAt 100 50 q = compressGo cexSizeAt 100 50 (q - 10) := by
    intro q h20 h25 h85
    rw [compressGo_step cexSizeAt 100 50 q h20, if_neg]
    simp only [cexSizeAt]
    rw [if_neg (by omega)]
    omega
  have e : compressImage cexSizeAt 100 50 = 100 := by
    rw [compressImage]
    rw [step 85 (by omega) (by omega) (by omega)]
    rw [show (85 : Nat) - 10 = 75 by omega, step 75 (by omega) (by omega) (by omega)]
    rw [show (75 : Nat) - 10 = 65 by omega, step 65 (by omega) (by omega) (by omega)]
    rw [show (65 : Nat) - 10 = 55 by omega, step 55 (by omega) (by omega) (by omega)]
    rw [show (55 : Nat) - 10 = 45 by omega, step 45 (by omega) (by omega) (by omega)]
    rw [show (45 : Nat) - 10 = 35 by omega, step 35 (by omega) (by omega) (by omega)]
    rw [show (35 : Nat) - 10 = 25 by omega, step 25 (by omega) (by omega) (by omega)]
    rw [show (25 : Nat) - 10 = 15 by omega, compressGo_floor cexSizeAt 100 50 15 (by omega)]
  refine ⟨le_refl 20, by norm_num [cexSizeAt], ?_⟩
  rw [e]
  omega


theorem exportFold_no_sections (lst : List Lyric) (cur : Option Str) (acc : Str)
    (h : ∀ l ∈ lst, l.sect.getD [] = []) :
    (lst.foldl exportStep (cur, acc)).2 = acc ++ lst.flatMap (fun l => l.text ++ ['\n']) := by
  induction lst generalizing cur acc with
  | nil => simp
  | cons l ls ih =>
    have hl : l.sect.getD [] = [] := h l (by simp)
    have hstep : exportStep (cur, acc) l = (cur, acc ++ (l.text ++ ['\n'])) := by
      simp [exportStep, hl]
    simp only [List.foldl_cons, List.flatMap_cons, hstep]
    rw [ih cur (acc ++ (l.text ++ ['\n'])) (fun x hx => h x (List.mem_cons_of_mem l hx))]
    simp [List.append_assoc]


theorem exportStep_spec (cur : Option Str) (acc : Str) (l : Lyric) :
    exportStep (cur, acc) l =
      (specRunningHeader cur l, acc ++ (specHeaderFor cur l ++ (l.text ++ ['\n']))) := by
  by_cases h : l.sect.getD [] ≠ [] ∧ some (l.sect.getD []) ≠ cur <;>
    simp [exportStep, specRunningHeader, specHeaderFor, h, List.append_assoc]

theorem exportFold_spec (ls : List Lyric) (cur : Option Str) (acc : Str) :
    (ls.foldl exportStep (cur, acc)).2 = acc ++ specExport cur ls := by
  induction ls generalizing cur acc with
  | nil => simp [specExport]
  | cons l ls ih =>
    simp only [List.foldl_cons, exportStep_spec, specExport]
    rw [ih]
    simp [List.append_assoc]

/-- C6 (amended).  The Text Exporter writes one line per lyric entry in
final order and inserts a bracketed uppercase section header line
whenever the entry's section is non-empty AND differs from the section
of the most recently emitted header (including before the first entry
with a non-empty section); entries with an empty section never produce a
header and do not reset the running section, so a section repeated after
intervening empty-section entries gets no second header.  The first
conjunct settles this rule for EVERY entry list: the export equals the
entry-by-entry reconstruction `specExport`, stated from the amended
claim's words (header per `specHeaderFor`, then the text and a newline,
threading the last emitted header's section per `specRunningHeader`).
The remaining conjuncts instantiate it: the claim's concrete example
holds as stated, the repeated-section case shows the corrected
behavior, and a list whose entries all have empty sections is exported
with no headers at all. -/
theorem c6_export_headers (lst : List Lyric) :
    exportLyricsToText lst = specExport none lst ∧
      exportLyricsToText
          [{ text := "a".data, sect := some "verse 1".data },
            { text := "b".data, sect := some "verse 1".data },
            { text := "c".data, sect := some "chorus".data }] =
        "\n[VERSE 1]\na\nb\n\n[CHORUS]\nc\n".data ∧
      exportLyricsToText
          [{ text := "x".data, sect := some "verse".data },
            { text := "y".data, sect := some [] },
            { text := "z".data, sect := some "verse".data }] =
        "\n[VERSE]\nx\ny\nz\n".data ∧
      ((∀ l ∈ lst, l.sect.getD [] = []) →
        exportLyricsToText lst = lst.flatMap (fun l => l.text ++ ['\n'])) := by
  refine ⟨?_, by decide, by decide, fun h => ?_⟩
  · rw [exportLyricsToText, exportFold_spec lst none []]
    rfl
  · rw [exportLyricsToText, exportFold_no_sections lst none [] h]
    rfl


theorem c6_export_headers_witness :
    exportLyricsToText [{ text := "t".data }] = "t\n".data :=
  (c6_export_headers [{ text := "t".data }]).2.2.2 (by decide)


/-- C6 counterexample.  Entries with sections "verse", "", "verse": per
the claim, the third entry's section differs from the previous entry's
(empty) section, so a second header should be emitted before it; the
code compares against the last headered section ("verse") and emits no
header, so the claimed output is not produced. -/
theorem c6_export_headers_counterexample :
    ¬ (exportLyricsToText
        [{ text := "x".data, sect := some "verse".data },
          { text := "y".data, sect := some [] },
          { text := "z".data, sect := some "verse".data }] =
      "\n[VERSE]\nx\ny\n\n[VERSE]\nz\n".data) := by
  decide


/-- C4 counterexample.  With no lyrics extracted, the pipeline returns
`.ok none` (no exception), so the CLI prints "Success" and exits 0 and
the web endpoint answers `success:true` — not exit code 1 and not a
`success:false` response as the claim demands. -/
theorem c4_no_lyrics_counterexample :
    (processSheetMusic [] (.ok ()) true).1 = .ok none ∧
      cliMain (processSheetMusic [] (.ok ()) true).1 = (0, "Success".data) ∧
      (webProcessRun (processSheetMusic [] (.ok ()) true) "out.pptx".data []).success
        = true ∧
      ¬ ((cliMain (processSheetMusic [] (.ok ()) true).1).1 = 1 ∨
          (webProcessRun (processSheetMusic [] (.ok ()) true) "out.pptx".data []).success
            = false) :=
  ⟨rfl, rfl, rfl, by decide⟩


/-- C4 (amended).  If extraction yields no lyric entries at all, the run
aborts before deck creation but is NOT run-fatal: the pipeline prints a
message and returns `None` without raising (writing no output file), the
CLI prints "Success" and exits 0, and the HTTP `/process` endpoint
returns a JSON `success:true` response (with empty lyrics text and a
`pptx_path` naming a deck that was never written). -/
theorem c4_no_lyrics_not_fatal (deckSave : Except Str Unit) (exportText : Bool)
    (outName content : Str) :
    processSheetMusic [] deckSave exportText = (.ok none, {}) ∧
      cliMain (processSheetMusic [] deckSave exportText).1 = (0, "Success".data) ∧
      (webProcessRun (processSheetMusic [] deckSave exportText) outName content).success
        = true :=
  ⟨rfl, rfl, rfl⟩


/-- C8 (confirmed).  A POST `/process` request carrying a `.pdf` file
but an empty `api_key` is answered exactly with the JSON
`success:false / "Please provide an OpenAI API key"`, no exception
escapes (the embedding is total), and no file is written to the upload
or output folders by that request: the guard runs before `file.save`. -/
theorem c8_missing_api_key (fileField : Option Str) (apiKey : Str)
    (lyricsData : List Lyric) (deckSave : Except Str Unit)
    (inName outName lyricsName content fn : Str)
    (hfile : fileField = some fn) (hpdf : ".pdf".data.isSuffixOf fn)
    (hkey : apiKey = []) :
    processEndpoint fileField apiKey lyricsData deckSave inName outName lyricsName
        content =
      { response := { success := false
                      error := some "Please provide an OpenAI API key".data } } := by
  subst hfile
  subst hkey
  have hne : ¬(fn = [] ∨ ¬(".pdf".data.isSuffixOf fn = true)) := by
    rintro (h | h)
    · subst h
      exact absurd hpdf (by decide)
    · exact h hpdf
  simp only [processEndpoint]
  rw [if_neg hne]
  simp


theorem c8_missing_api_key_witness :
    processEndpoint (some "song.pdf".data) [] [] (.ok ()) "in.pdf".data
        "out.pptx".data "out_lyrics.txt".data [] =
      { response := { success := false
                      error := some "Please provide an OpenAI API key".data } } :=
  c8_missing_api_key (some "song.pdf".data) [] [] (.ok ()) "in.pdf".data
    "out.pptx".data "out_lyrics.txt".data [] "song.pdf".data rfl (by decide) rfl


theorem lookupFile_removeFile_self (fs : List (Str × Str)) (p : Str) :
    lookupFile (removeFile fs p) p = none := by
  induction fs with
  | nil => rfl
  | cons e rest ih =>
    by_cases h : e.1 = p
    · simp [removeFile, h, ih]
    · simp [removeFile, lookupFile, h, ih]


theorem lookupFile_removeFile_none (fs : List (Str × Str)) (p q : Str)
    (h : lookupFile fs p = none) : lookupFile (removeFile fs q) p = none := by
  induction fs with
  | nil => rfl
  | cons e rest ih =>
    simp only [lookupFile] at h
    by_cases he : e.1 = p
    · rw [if_pos he] at h
      exact absurd h (by simp)
    · rw [if_neg he] at h
      by_cases hq : e.1 = q
      · simp [removeFile, hq, ih h]
      · simp [removeFile, lookupFile, hq, he, ih h]


/-- C9 (confirmed).  A request for a filename absent from the output
folder returns 404 and changes nothing; a successful download returns
exactly the stored deck bytes and deletes both the deck file and its
paired `_lyrics.txt` export, so a second request for the same filename
against the resulting folder state returns 404. -/
theorem c9_download_once (fs : List (Str × Str)) (filename : Str) :
    (lookupFile fs (downloadPath filename) = none →
        downloadFile fs filename = (.notFound, fs)) ∧
      (∀ d fs2, downloadFile fs filename = (.ok d, fs2) →
        lookupFile fs (downloadPath filename) = some d ∧
          lookupFile fs2 (downloadPath filename) = none ∧
          lookupFile fs2 (lyricsPathOf (downloadPath filename)) = none ∧
          (downloadFile fs2 filename).1 = .notFound) := by
  constructor
  · intro h
    simp [downloadFile, h]
  · intro d fs2 hrun
    simp only [downloadFile] at hrun
    cases hlk : lookupFile fs (downloadPath filename) with
    | none =>
      rw [hlk] at hrun
      exact absurd hrun (by simp)
    | some data =>
      rw [hlk] at hrun
      simp only [Prod.mk.injEq, DlResult.ok.injEq] at hrun
      obtain ⟨hd, hfs⟩ := hrun
      subst hd
      have h2 : lookupFile fs2 (downloadPath filename) = none := by
        rw [← hfs]
        by_cases hs : (lookupFile (removeFile fs (downloadPath filename))
            (lyricsPathOf (downloadPath filename))).isSome
        · rw [if_pos hs]
          exact lookupFile_removeFile_none _ _ _ (lookupFile_removeFile_self fs _)
        · rw [if_neg hs]
          exact lookupFile_removeFile_self fs _
      have h3 : lookupFile fs2 (lyricsPathOf (downloadPath filename)) = none := by
        rw [← hfs]
        by_cases hs : (lookupFile (removeFile fs (downloadPath filename))
            (lyricsPathOf (downloadPath filename))).isSome
        · rw [if_pos hs]
          exact lookupFile_removeFile_self _ _
        · rw [if_neg hs]
          exact Option.not_isSome_iff_eq_none.mp hs
      refine ⟨rfl, h2, h3, ?_⟩
      simp [downloadFile, h2]


theorem c9_download_once_witness :
    downloadFile dlFsEx "b.pptx".data = (.notFound, dlFsEx) ∧
      (lookupFile dlFsEx (downloadPath "a.pptx".data) = some "DECK".data ∧
        lookupFile [] (downloadPath "a.pptx".data) = none ∧
        lookupFile [] (lyricsPathOf (downloadPath "a.pptx".data)) = none ∧
        (downloadFile [] "a.pptx".data).1 = .notFound) :=
  ⟨(c9_download_once dlFsEx "b.pptx".data).1 (by decide),
    (c9_download_once dlFsEx "a.pptx".data).2 "DECK".data [] (by decide)⟩


theorem lookupField_map_replace (fields : List (Str × JVal)) (k : Str) (v : JVal)
    (h : fields.any (fun f => f.1 == k) = true) :
    lookupField (fields.map (fun f => if f.1 = k then (k, v) else f)) k = some v := by
  induction fields with
  | nil => simp at h
  | cons f rest ih =>
    by_cases hf : f.1 = k
    · simp [lookupField, hf]
    · simp only [List.any_cons, Bool.or_eq_true] at h
      have hrest : rest.any (fun f => f.1 == k) = true := by
        rcases h with hh | hh
        · exact absurd (beq_iff_eq.mp hh) hf
        · exact hh
      simp [List.map_cons, lookupField, hf, ih hrest]


theorem lookupField_append_new (fields : List (Str × JVal)) (k : Str) (v : JVal)
    (h : fields.any (fun f => f.1 == k) = false) :
    lookupField (fields ++ [(k, v)]) k = some v := by
  induction fields with
  | nil => simp [lookupField]
  | cons f rest ih =>
    simp only [List.any_cons, Bool.or_eq_false_iff] at h
    have hf : ¬(f.1 = k) := by simpa using h.1
    simp [List.cons_append, lookupField, hf, ih h.2]


theorem lookupField_setField (fields : List (Str × JVal)) (k : Str) (v : JVal) :
    lookupField (setField k v fields) k = some v := by
  by_cases h : fields.any (fun f => f.1 == k) = true
  · rw [setField, if_pos h]
    exact lookupField_map_replace fields k v h
  · rw [setField, if_neg h]
    refine lookupField_append_new fields k v ?_
    simp only [Bool.not_eq_true] at h
    exact h


theorem lyricsListOf_obj (j : JVal) (ls : List JVal) (h : lyricsListOf j = some ls) :
    ∀ l ∈ ls, isJObj l = true := by
  intro l hl
  cases j with
  | jobj fields =>
    simp only [lyricsListOf] at h
    cases hlk : lookupField fields "lyrics".data with
    | none =>
      rw [hlk] at h
      simp only [lyricsFromVal, Option.some.injEq] at h
      rw [← h] at hl
      simp at hl
    | some v =>
      rw [hlk] at h
      cases v with
      | jarr items =>
        simp only [lyricsFromVal] at h
        by_cases hall : items.all isJObj = true
        · rw [if_pos hall] at h
          simp only [Option.some.injEq] at h
          rw [← h] at hl
          exact List.all_eq_true.mp hall l hl
        · rw [if_neg hall] at h
          exact absurd h (by simp)
      | jnull => exact absurd h (by simp [lyricsFromVal])
      | jbool b => exact absurd h (by simp [lyricsFromVal])
      | jnum n => exact absurd h (by simp [lyricsFromVal])
      | jdec d => exact absurd h (by simp [lyricsFromVal])
      | jstr s => exact absurd h (by simp [lyricsFromVal])
      | jobj fs => exact absurd h (by simp [lyricsFromVal])
  | jnull => exact absurd h (by simp [lyricsListOf])
  | jbool b => exact absurd h (by simp [lyricsListOf])
  | jnum n => exact absurd h (by simp [lyricsListOf])
  | jdec d => exact absurd h (by simp [lyricsListOf])
  | jstr s => exact absurd h (by simp [lyricsListOf])
  | jarr items => exact absurd h (by simp [lyricsListOf])


theorem braceSpan_pad (pre reply post : Str)
    (hpre : ∀ c ∈ pre, c ≠ '\x7b' ∧ c ≠ '\x7d')
    (hpost : ∀ c ∈ post, c ≠ '\x7b' ∧ c ≠ '\x7d') :
    braceSpan (pre ++ reply ++ post) = braceSpan reply := by
  have hpre' : pre.dropWhile (fun c => !(c == '\x7b')) = [] :=
    List.dropWhile_eq_nil_iff.mpr (fun c hc => by simp [(hpre c hc).1])
  have hpostb : post.dropWhile (fun c => !(c == '\x7b')) = [] :=
    List.dropWhile_eq_nil_iff.mpr (fun c hc => by simp [(hpost c hc).1])
  have hpostq : post.reverse.dropWhile (fun c => !(c == '\x7d')) = [] :=
    List.dropWhile_eq_nil_iff.mpr
      (fun c hc => by simp [(hpost c (List.mem_reverse.mp hc)).2])
  have hpostany : post.any (fun c => c == '\x7d') = false := by
    rw [List.any_eq_false]
    intro c hc
    simp [(hpost c hc).2]
  have hd : (pre ++ reply ++ post).dropWhile (fun c => !(c == '\x7b')) =
      (reply ++ post).dropWhile (fun c => !(c == '\x7b')) := by
    rw [List.append_assoc, List.dropWhile_append, hpre']
    simp
  simp only [braceSpan]
  rw [hd]
  cases hr : reply.dropWhile (fun c => !(c == '\x7b')) with
  | nil =>
    have h1 : (reply ++ post).dropWhile (fun c => !(c == '\x7b')) = [] := by
      rw [List.dropWhile_append, hr]
      simpa using hpostb
    rw [h1]
  | cons b rest =>
    have h1 : (reply ++ post).dropWhile (fun c => !(c == '\x7b')) = b :: (rest ++ post) := by
      rw [List.dropWhile_append, hr]
      simp
    rw [h1]
    simp only [List.any_append, hpostany, Bool.or_false]
    by_cases ha : rest.any (fun c => c == '\x7d') = true
    · rw [if_pos ha, if_pos ha]
      have hrev : (b :: (rest ++ post)).reverse = post.reverse ++ (b :: rest).reverse := by
        simp
      rw [hrev, List.dropWhile_append, hpostq]
      simp
    · rw [if_neg ha, if_neg ha]


/-- C5 (amended).  The Page Lyric Extractor takes the span from the
first opening brace to the last closing brace of the reply (the greedy
regex match) and parses that as JSON: prose before the first opening
brace and after the last closing brace — provided it contains no brace —
is tolerated and does not change the result; an exception from the
network call yields the empty fragment list; and on success every
returned fragment carries the 1-based page number in its `page` field.
A closing brace inside trailing prose, however, widens the span and
defeats parsing (see the counterexample). -/
theorem c5_extractor_parsing (e reply pre post : Str) (p : Nat) (frag : JVal) :
    extractLyricsWithGpt4 (.error e) p = [] ∧
      (frag ∈ extractLyricsWithGpt4 (.ok reply) p →
        getJField frag "page".data = some (.jnum (p : Int))) ∧
      ((∀ c ∈ pre, c ≠ '\x7b' ∧ c ≠ '\x7d') → (∀ c ∈ post, c ≠ '\x7b' ∧ c ≠ '\x7d') →
        extractLyricsWithGpt4 (.ok (pre ++ reply ++ post)) p =
          extractLyricsWithGpt4 (.ok reply) p) := by
  refine ⟨rfl, ?_, ?_⟩
  · intro hfrag
    simp only [extractLyricsWithGpt4] at hfrag
    cases hb : braceSpan reply with
    | none => rw [hb] at hfrag; simp [spanLyricsOf] at hfrag
    | some span =>
      rw [hb] at hfrag
      simp only [spanLyricsOf] at hfrag
      cases hj : jparse span with
      | none => rw [hj] at hfrag; simp [pageLyricsOf] at hfrag
      | some j =>
        rw [hj] at hfrag
        simp only [pageLyricsOf] at hfrag
        cases hl : lyricsListOf j with
        | none => rw [hl] at hfrag; simp [fragsOf] at hfrag
        | some ls =>
          rw [hl] at hfrag
          simp only [fragsOf, List.mem_map] at hfrag
          obtain ⟨l, hlmem, hset⟩ := hfrag
          have hobj := lyricsListOf_obj j ls hl l hlmem
          cases l with
          | jobj fields =>
            rw [← hset]
            simp only [setJPage, getJField]
            exact lookupField_setField fields "page".data (.jnum (p : Int))
          | jnull => exact absurd hobj (by simp [isJObj])
          | jbool b => exact absurd hobj (by simp [isJObj])
          | jnum n => exact absurd hobj (by simp [isJObj])
          | jdec d => exact absurd hobj (by simp [isJObj])
          | jstr s => exact absurd hobj (by simp [isJObj])
          | jarr items => exact absurd hobj (by simp [isJObj])
  · intro hpre hpost
    simp only [extractLyricsWithGpt4]
    rw [braceSpan_pad pre reply post hpre hpost]


/-- C5 counterexample.  The reply is the valid JSON object `c5Obj`
followed by prose that contains a closing brace.  The first
brace-delimited JSON object of the reply (`c5Obj` itself, a prefix)
parses on its own and its `lyrics` list is non-empty, yet the extractor
returns the empty list, because the greedy regex selects the span up to
the LAST closing brace, which does not parse: the claim's "parses the
first brace-delimited JSON object found anywhere in the reply (prose
around it is tolerated)" fails. -/
theorem c5_extractor_counterexample :
    jparse c5Obj =
        some (.jobj [("lyrics".data,
          .jarr [.jobj [("text".data, .jstr "a".data)]])]) ∧
      extractLyricsWithGpt4 (.ok (c5Obj ++ " tail\x7d".data)) 1 = [] :=
  ⟨rfl, rfl⟩


theorem c5_extractor_parsing_witness :
    getJField (.jobj [("text".data, .jstr "a".data), ("page".data, .jnum 3)])
        "page".data = some (.jnum 3) ∧
      extractLyricsWithGpt4 (.ok ("note: ".data ++ c5Obj ++ " done.".data)) 3 =
        extractLyricsWithGpt4 (.ok c5Obj) 3 :=
  ⟨(c5_extractor_parsing "x".data c5Obj "note: ".data " done.".data 3
        (.jobj [("text".data, .jstr "a".data), ("page".data, .jnum 3)])).2.1
      (List.mem_singleton.mpr rfl),
    (c5_extractor_parsing "x".data c5Obj "note: ".data " done.".data 3
        (.jobj [("text".data, .jstr "a".data), ("page".data, .jnum 3)])).2.2
      (by decide) (by decide)⟩

